import Mathlib

/-!
Attenuation length of radio signals in ice: `NuRadioMC/utilities/attenuation.h`.

A shallow embedding of `get_temperature` and `get_attenuation_length`.

Conventions of the embedding.

* A C `double` is read as an exact number: the functions are written once, over an
  arbitrary linearly ordered field `α`, so that they can be run on `ℚ` and reasoned
  about on `ℝ`.  Rounding, overflow and underflow of binary floating point are not
  part of the model.
* A computation has type `Option α`.  `some r` says that exact arithmetic gives the
  number `r`.  `none` says that the computation went through an operation without a
  value among the numbers: a division by zero or the logarithm of a non-positive
  argument (where the C code goes on with an infinity or a NaN).
* `exp` and `log` of `<math.h>` are arguments of the functions; the theorems on
  model 1 take them to be `Real.exp` and `Real.log`.
* `utl::m`, `utl::GHz` and `utl::MHz` come from `units.h`, which is not part of the
  sources at hand; they are the fields of a `Units` argument.
* `throw 0` is `Except.error 0`; a `return` is `Except.ok`.  The line written to
  `std::cout` before the `throw` is not modelled.
-/

namespace Attenuation

/-- The unit constants of `units.h` used by `attenuation.h`. -/
structure Units (α : Type) where
  /-- The constant `utl::m`. -/
  m : α
  /-- The constant `utl::GHz`. -/
  GHz : α
  /-- The constant `utl::MHz`. -/
  MHz : α

/-- A unit system with lengths in metres and frequencies in GHz, on which the code is
evaluated at concrete inputs. -/
def metreGHz (α : Type) [LinearOrderedField α] : Units α :=
  { m := 1, GHz := 1, MHz := 1 / 1000 }

section Code

variable {α : Type} [LinearOrderedField α]

/-- The C operator `/` on doubles: no number results from a division by zero. -/
def c_div (x y : α) : Option α :=
  if y = 0 then none else some (x / y)

/-- The function `log` of `<math.h>`: a number results for positive arguments only. -/
def c_log (log : α → α) (x : α) : Option α :=
  if 0 < x then some (log x) else none

/-- Temperature as a function of depth (`attenuation.h`, lines 6-11).  The call `abs`
is the absolute value on `double`. -/
def get_temperature (u : Units α) (z : α) : Option α := do
  let z2 := |(← c_div z u.m)|
  pure (1.83415e-09*z2*z2*z2 + (-1.59061e-08*z2*z2) + 0.00267687*z2 + (-51.0696))

/-- The table `att_length` of model 2 (lines 36-44). -/
def att_length : List α :=
  [453.19, 461.92, 472.39, 483.73, 492.46, 502.05, 510.78, 519.50, 528.23,
   534.33, 543.06, 550.91, 561.38, 575.34, 584.06, 595.40, 605.87, 617.21, 627.68, 639.90,
   651.24, 660.83, 673.05, 683.52, 693.98, 702.71, 714.05, 728.88, 741.97, 760.29, 775.99,
   786.46, 799.54, 810.88, 823.10, 836.18, 848.40, 860.61, 871.08, 883.29, 899.87, 911.21,
   926.04, 938.25, 948.72, 960.94, 974.02, 986.24, 997.58, 1008.05, 1022.01, 1031.61,
   1043.82, 1056.91, 1065.63, 1076.98, 1088.32, 1099.66, 1113.63, 1121.48, 1133.7, 1141.55,
   1150.28, 1159.89, 1168.62, 1174.74, 1179.11, 1180.87, 1180.01, 1179.15, 1174.80, 1169.59,
   1165.25, 1160.03, 1153.94, 1149.59, 1144.37, 1140.03, 1137.42, 1134.82, 1133.97, 1135.73,
   1136.62, 1140.12, 1143.63, 1148.00, 1154.12, 1153.27, 1153.28, 1152.42]

/-- The table `depth` of model 2 (lines 46-54). -/
def depth : List α :=
  [-3038.15, -3007.84, -2988.93, -2962.42, -2947.29, -2935.95, -2913.23, -2901.89, -2890.55,
   -2875.41, -2860.27, -2845.14, -2826.22, -2811.10, -2792.18, -2773.26, -2754.34, -2739.22,
   -2716.51,
   -2701.39, -2682.47, -2663.55, -2644.64, -2633.30, -2614.38, -2603.04, -2580.34, -2565.23,
   -2538.73,
   -2512.26, -2493.36, -2470.65, -2451.74, -2440.41, -2417.71, -2395.01, -2379.89, -2357.19,
   -2342.06,
   -2319.35, -2296.67, -2285.34, -2262.64, -2243.73, -2221.02, -2202.11, -2179.41, -2156.70,
   -2126.41,
   -2118.87, -2092.38, -2069.66, -2043.16, -2024.26, -1997.74, -1967.45, -1944.74, -1918.24,
   -1880.37,
   -1853.86, -1827.36, -1789.47, -1755.37, -1702.31, -1641.67, -1588.60, -1524.14, -1459.67,
   -1395.19,
   -1330.71, -1285.18, -1194.14, -1129.64, -1061.35, -1000.64, -947.53, -883.03, -810.95,
   -746.46,
   -678.19, -606.12, -537.86, -458.22, -378.59, -306.54, -238.29, -173.84, -97.98, -44.89,
   -3.16]

/-- The entry `att_length[i]`. -/
def att_length_at (i : Nat) : α := (att_length : List α).getD i 0

/-- The entry `depth[i]`. -/
def depth_at (i : Nat) : α := (depth : List α).getD i 0

/-- One pass through the body of the loop of lines 61-66: the pair
`(ind_left, ind_right)` after the iteration with counter `i`. -/
def scan_step (z : α) (s : Nat × Nat) (i : Nat) : Nat × Nat :=
  if z > depth_at i ∧ z < depth_at (i+1) then (i, i+1) else s

/-- The loop `for (int i = 0; i < 89; i++)` of lines 60-66, started from
`ind_left = 0, ind_right = 0`. -/
def scan (z : α) : Nat × Nat :=
  (List.range 89).foldl (scan_step z) (0, 0)

/-- The branch `frequency < 1 GHz` of model 1 (lines 27-28): the pair `(a, bb)`. -/
def fit_lower (w0 w1 b0 b1 : α) : Option (α × α) := do
  let a ← c_div (b1 * w0 - b0 * w1) (w0 - w1)
  let bb ← c_div (b1 - b0) (w1 - w0)
  pure (a, bb)

/-- The `else` branch of model 1 (lines 30-31): the pair `(a, bb)`. -/
def fit_upper (w1 w2 b1 b2 : α) : Option (α × α) := do
  let a ← c_div (b2 * w1 - b1 * w2) (w1 - w2)
  let bb ← c_div (b2 - b1) (w2 - w1)
  pure (a, bb)

/-- The value of `b0` at temperature `t` (line 22). -/
def fit_b0 (t : α) : α := -6.74890 + t * (0.026709 - t * 0.000884)

/-- The value of `b1` at temperature `t` (line 23). -/
def fit_b1 (t : α) : α := -6.22121 - t * (0.070927 + t * 0.001773)

/-- The value of `b2` at temperature `t` (line 24). -/
def fit_b2 (t : α) : α := -4.09468 - t * (0.002213 + t * 0.000332)

/-- The branch `model == 1` of `get_attenuation_length` (lines 15-33). -/
def get_attenuation_length_model1 (exp log : α → α) (u : Units α) (z frequency : α) :
    Option α := do
  let t ← get_temperature u z
  let f0 : α := 0.0001
  let f2 : α := 3.16
  let w0 ← c_log log f0
  let w1 : α := 0
  let w2 ← c_log log f2
  let w ← c_log log (← c_div frequency u.GHz)
  let b0 := fit_b0 t
  let b1 := fit_b1 t
  let b2 := fit_b2 t
  let (a, bb) ← if frequency < 1 * u.GHz then fit_lower w0 w1 b0 b1 else fit_upper w1 w2 b1 b2
  c_div 1 (exp (a + bb * w))

/-- The branch `model == 2` of `get_attenuation_length` (lines 36-72). -/
def get_attenuation_length_model2 (u : Units α) (z frequency : α) : Option α :=
  if z < depth_at 0 then some (att_length_at 0)
  else if z > depth_at 89 then some (att_length_at 89)
  else do
    let (ind_left, ind_right) := scan z
    let att_length_75_interp := att_length_at ind_left +
      (← c_div ((att_length_at ind_right - att_length_at ind_left) * (z - depth_at ind_left))
        (depth_at ind_right - depth_at ind_left))
    let att_length_f := att_length_75_interp - 0.55 * u.m * ((← c_div frequency u.MHz) - 75)
    pure att_length_f

/-- The function `get_attenuation_length` (lines 13-77). -/
def get_attenuation_length (exp log : α → α) (u : Units α) (z frequency : α) (model : Int) :
    Except Int (Option α) :=
  if model = 1 then .ok (get_attenuation_length_model1 exp log u z frequency)
  else if model = 2 then .ok (get_attenuation_length_model2 u z frequency)
  else .error 0

end Code

section Spec

variable {α : Type} [LinearOrderedField α]

/-- The straight line through `(x0, y0)` and `(x1, y1)`, evaluated at `x`. -/
def line_through (x0 y0 x1 y1 x : α) : α :=
  y0 + (y1 - y0) / (x1 - x0) * (x - x0)

end Spec

section Tables

variable {α : Type} [LinearOrderedField α]

theorem att_length_length : (att_length : List α).length = 90 := rfl

theorem depth_length : (depth : List α).length = 90 := rfl

theorem depth_chain : List.Chain' (· < ·) (depth : List α) := by
  simp only [depth, List.chain'_cons, List.chain'_singleton, and_true]
  norm_num

theorem depth_pairwise : List.Pairwise (· < ·) (depth : List α) :=
  List.chain'_iff_pairwise.mp depth_chain

/-- The table `depth` is strictly increasing. -/
theorem depth_at_lt {i j : Nat} (hij : i < j) (hj : j < 90) :
    (depth_at i : α) < depth_at j := by
  have hi : i < (depth : List α).length := by rw [depth_length]; omega
  have hj2 : j < (depth : List α).length := by rw [depth_length]; omega
  have h := List.pairwise_iff_getElem.mp (depth_pairwise (α := α)) i j hi hj2 hij
  simpa [depth_at, List.getD_eq_getElem, hi, hj2] using h

theorem depth_at_le {i j : Nat} (hij : i ≤ j) (hj : j < 90) :
    (depth_at i : α) ≤ depth_at j := by
  rcases Nat.eq_or_lt_of_le hij with h | h
  · rw [h]
  · exact le_of_lt (depth_at_lt h hj)

theorem depth_at_zero : (depth_at 0 : α) = -3038.15 := rfl

theorem depth_at_last : (depth_at 89 : α) = -3.16 := rfl

theorem att_length_at_zero : (att_length_at 0 : α) = 453.19 := rfl

theorem att_length_at_last : (att_length_at 89 : α) = 1152.42 := rfl

/-- Every entry of `att_length` lies between `453.19` and `1180.87`. -/
theorem att_length_mem_bounds :
    ∀ x ∈ (att_length : List α), (453.19 : α) ≤ x ∧ x ≤ 1180.87 := by
  simp only [att_length, List.mem_cons, List.mem_singleton, List.not_mem_nil, or_false,
    forall_eq_or_imp, forall_eq]
  norm_num

theorem att_length_at_bounds (k : Nat) (hk : k ≤ 89) :
    (453.19 : α) ≤ att_length_at k ∧ att_length_at k ≤ (1180.87 : α) := by
  have hlen : k < (att_length : List α).length := by rw [att_length_length]; omega
  have hmem : (att_length : List α)[k] ∈ (att_length : List α) := List.getElem_mem _
  have h := att_length_mem_bounds (α := α) _ hmem
  simpa [att_length_at, List.getD_eq_getElem, hlen] using h

end Tables

section Scan

variable {α : Type} [LinearOrderedField α]

/-- A loop over counters none of which brackets `z` leaves the pair unchanged. -/
theorem foldl_scan_step_of_no_bracket (z : α) (s : Nat × Nat) (n : Nat)
    (h : ∀ i, i < n → ¬ (z > depth_at i ∧ z < depth_at (i+1))) :
    (List.range n).foldl (scan_step z) s = s := by
  induction n with
  | zero => simp
  | succ n ih =>
    rw [List.range_succ, List.foldl_append, ih (fun i hi => h i (Nat.lt_succ_of_lt hi))]
    simp [scan_step, h n (Nat.lt_succ_self n)]

/-- A loop that passes the counter `i` whose bracket contains `z` ends with `(i, i+1)`. -/
theorem foldl_scan_step_of_bracket (z : α) (s : Nat × Nat) (i n : Nat) (hi : i < n)
    (hn : n ≤ 89) (hz : depth_at i < z ∧ z < depth_at (i+1)) :
    (List.range n).foldl (scan_step z) s = (i, i+1) := by
  induction n with
  | zero => omega
  | succ n ih =>
    rw [List.range_succ, List.foldl_append]
    rcases Nat.eq_or_lt_of_le (Nat.le_of_lt_succ hi) with h | h
    · subst h
      simp [scan_step, hz.1, hz.2]
    · rw [ih h (by omega)]
      have hle : (depth_at (i+1) : α) ≤ depth_at n := depth_at_le (by omega) (by omega)
      have hnot : ¬ (z > depth_at n ∧ z < depth_at (n+1)) := by
        intro hc
        exact absurd (lt_of_lt_of_le hz.2 hle) (not_lt.mpr (le_of_lt hc.1))
      simp [scan_step, hnot]

/-- The scan selects the bracket that contains `z`. -/
theorem scan_of_bracket (z : α) (i : Nat) (hi : i ≤ 88)
    (hz : depth_at i < z ∧ z < depth_at (i+1)) : scan z = (i, i+1) :=
  foldl_scan_step_of_bracket z (0, 0) i 89 (by omega) (le_refl 89) hz

/-- The scan keeps `(0, 0)` when no bracket contains `z`. -/
theorem scan_of_no_bracket (z : α)
    (h : ∀ i, i < 89 → ¬ (z > depth_at i ∧ z < depth_at (i+1))) : scan z = (0, 0) :=
  foldl_scan_step_of_no_bracket z (0, 0) 89 h

/-- Each iteration of the loop keeps both indices below the counter bound. -/
theorem foldl_scan_step_bound (z : α) (s : Nat × Nat) (n b : Nat) (hn : n < b)
    (hs : s.1 < b ∧ s.2 < b) :
    ((List.range n).foldl (scan_step z) s).1 < b ∧
      ((List.range n).foldl (scan_step z) s).2 < b := by
  induction n with
  | zero => simpa using hs
  | succ n ih =>
    rw [List.range_succ, List.foldl_append]
    have ih2 := ih (by omega)
    simp only [List.foldl_cons, List.foldl_nil, scan_step]
    split_ifs
    · exact ⟨by simp; omega, by simp; omega⟩
    · exact ih2

/-- The indices left by the scan are at most `89`. -/
theorem scan_bound (z : α) : (scan z).1 < 90 ∧ (scan z).2 < 90 :=
  foldl_scan_step_bound z (0, 0) 89 90 (by decide) ⟨by decide, by decide⟩

/-- A depth strictly between `depth[0]` and `depth[n]` that is no entry of the table
lies in a bracket below `n`. -/
theorem exists_bracket (z : α) (n : Nat) (hn : n ≤ 89) (h0 : depth_at 0 < z)
    (hz : z < depth_at n) (hne : ∀ k, k ≤ 89 → z ≠ depth_at k) :
    ∃ i, i < n ∧ depth_at i < z ∧ z < depth_at (i+1) := by
  induction n with
  | zero => exact absurd hz (not_lt.mpr (le_of_lt h0))
  | succ n ih =>
    by_cases hlt : z < depth_at n
    · obtain ⟨i, hi, hb⟩ := ih (by omega) hlt
      exact ⟨i, by omega, hb⟩
    · have hgt : depth_at n < z :=
        lt_of_le_of_ne (not_lt.mp hlt) (Ne.symm (hne n (by omega)))
      exact ⟨n, Nat.lt_succ_self n, hgt, hz⟩

/-- Two brackets that contain the same depth are the same bracket. -/
theorem bracket_unique (z : α) (i j : Nat) (hi : i ≤ 88) (hj : j ≤ 88)
    (hzi : depth_at i < z ∧ z < depth_at (i+1)) (hzj : depth_at j < z ∧ z < depth_at (j+1)) :
    j = i := by
  have h1 : ¬ i + 1 ≤ j := fun h =>
    absurd (lt_of_lt_of_le hzi.2 (depth_at_le h (by omega))) (not_lt.mpr (le_of_lt hzj.1))
  have h2 : ¬ j + 1 ≤ i := fun h =>
    absurd (lt_of_lt_of_le hzj.2 (depth_at_le h (by omega))) (not_lt.mpr (le_of_lt hzi.1))
  omega

end Scan

section Model2

variable {α : Type} [LinearOrderedField α]

/-- Inside a bracket of the table, model 2 interpolates between the two entries and
subtracts the frequency correction `0.55 * utl::m * (frequency / utl::MHz - 75)`. -/
theorem model2_of_bracket (u : Units α) (z frequency : α) (i : Nat) (hi : i ≤ 88)
    (hz : depth_at i < z ∧ z < depth_at (i+1)) (hMHz : u.MHz ≠ 0) :
    get_attenuation_length_model2 u z frequency =
      some (att_length_at i + (att_length_at (i+1) - att_length_at i) * (z - depth_at i) /
        (depth_at (i+1) - depth_at i) - 0.55 * u.m * (frequency / u.MHz - 75)) := by
  have h0 : ¬ z < depth_at 0 :=
    not_lt.mpr (le_trans (depth_at_le (Nat.zero_le i) (by omega)) (le_of_lt hz.1))
  have h89 : ¬ z > depth_at 89 :=
    not_lt.mpr (le_trans (le_of_lt hz.2) (depth_at_le (by omega) (by omega)))
  have hden : (depth_at (i+1) : α) - depth_at i ≠ 0 :=
    sub_ne_zero.mpr (ne_of_gt (depth_at_lt (Nat.lt_succ_self i) (by omega)))
  simp [get_attenuation_length_model2, h0, h89, scan_of_bracket z i hi hz, c_div, hden, hMHz]

/-- At an entry of the table `depth` the scan finds no bracket, both comparisons being
strict, and the pair stays `(0, 0)`. -/
theorem scan_at_table_entry (k : Nat) (hk : k ≤ 89) : scan (depth_at k : α) = (0, 0) := by
  apply scan_of_no_bracket
  intro i hi hc
  have h1 : i < k := by
    by_contra hcon
    exact absurd hc.1 (not_lt.mpr (depth_at_le (Nat.le_of_not_lt hcon) (by omega)))
  have h2 : k < i + 1 := by
    by_contra hcon
    exact absurd hc.2 (not_lt.mpr (depth_at_le (Nat.le_of_not_lt hcon) (by omega)))
  omega

/-- At an entry of the table `depth` model 2 divides by `depth[0] - depth[0]`. -/
theorem model2_at_table_entry (u : Units α) (frequency : α) (k : Nat) (hk : k ≤ 89) :
    get_attenuation_length_model2 u (depth_at k) frequency = none := by
  have h0 : ¬ (depth_at k : α) < depth_at 0 := not_lt.mpr (depth_at_le (Nat.zero_le k) (by omega))
  have h89 : ¬ (depth_at k : α) > depth_at 89 := not_lt.mpr (depth_at_le hk (by omega))
  simp [get_attenuation_length_model2, h0, h89, scan_at_table_entry k hk, c_div]

end Model2

section Model1

theorem log_f0_neg : Real.log 0.0001 < 0 := Real.log_neg (by norm_num) (by norm_num)

theorem log_f2_pos : 0 < Real.log 3.16 := Real.log_pos (by norm_num)

/-- The temperature is a number as soon as `utl::m` is not zero. -/
theorem get_temperature_some (u : Units ℝ) (z : ℝ) (hm : u.m ≠ 0) :
    ∃ T, get_temperature u z = some T := by
  simp [get_temperature, c_div, hm]

theorem fit_lower_eq_line (w0 b0 b1 w : ℝ) (h : w0 ≠ 0) :
    (b1 * w0 - b0 * 0) / (w0 - 0) + (b1 - b0) / (0 - w0) * w = line_through w0 b0 0 b1 w := by
  simp only [line_through, sub_zero, zero_sub, mul_zero, div_neg, div_eq_mul_inv]
  have key : w0 * w0⁻¹ = 1 := mul_inv_cancel₀ h
  linear_combination b0 * key

theorem fit_upper_eq_line (w2 b1 b2 w : ℝ) (h : w2 ≠ 0) :
    (b2 * 0 - b1 * w2) / (0 - w2) + (b2 - b1) / (w2 - 0) * w = line_through 0 b1 w2 b2 w := by
  simp only [line_through, sub_zero, zero_sub, mul_zero, zero_mul, div_neg, neg_div, neg_neg,
    div_eq_mul_inv]
  have key : w2 * w2⁻¹ = 1 := mul_inv_cancel₀ h
  linear_combination b1 * key

/-- Model 1 below `1 GHz`, for a frequency with `0 < frequency / utl::GHz`. -/
theorem model1_lower (u : Units ℝ) (z frequency T : ℝ) (hT : get_temperature u z = some T)
    (hG : u.GHz ≠ 0) (hpos : 0 < frequency / u.GHz) (hlt : frequency < 1 * u.GHz) :
    get_attenuation_length_model1 Real.exp Real.log u z frequency =
      some (1 / Real.exp (line_through (Real.log 0.0001) (fit_b0 T) 0 (fit_b1 T)
        (Real.log (frequency / u.GHz)))) := by
  have hw0 : Real.log 0.0001 ≠ 0 := ne_of_lt log_f0_neg
  have hw0a : Real.log 0.0001 - 0 ≠ 0 := by simpa using hw0
  have hw0b : 0 - Real.log 0.0001 ≠ 0 := by simpa using hw0
  have h0 : (0 : ℝ) < 0.0001 := by norm_num
  have h2 : (0 : ℝ) < 3.16 := by norm_num
  rw [← fit_lower_eq_line _ _ _ _ hw0]
  simp only [get_attenuation_length_model1, hT, c_log, c_div, fit_lower, h0, h2, hG, hpos, hlt,
    if_true, if_false, Option.pure_def, Option.bind_eq_bind, Option.some_bind,
    hw0a, hw0b, (Real.exp_pos _).ne']

/-- Model 1 from `1 GHz` on, for a frequency with `0 < frequency / utl::GHz`. -/
theorem model1_upper (u : Units ℝ) (z frequency T : ℝ) (hT : get_temperature u z = some T)
    (hG : u.GHz ≠ 0) (hpos : 0 < frequency / u.GHz) (hge : ¬ frequency < 1 * u.GHz) :
    get_attenuation_length_model1 Real.exp Real.log u z frequency =
      some (1 / Real.exp (line_through 0 (fit_b1 T) (Real.log 3.16) (fit_b2 T)
        (Real.log (frequency / u.GHz)))) := by
  have hw2 : Real.log 3.16 ≠ 0 := ne_of_gt log_f2_pos
  have hw2a : Real.log 3.16 - 0 ≠ 0 := by simpa using hw2
  have hw2b : 0 - Real.log 3.16 ≠ 0 := by simpa using hw2
  have h0 : (0 : ℝ) < 0.0001 := by norm_num
  have h2 : (0 : ℝ) < 3.16 := by norm_num
  rw [← fit_upper_eq_line _ _ _ _ hw2]
  simp only [get_attenuation_length_model1, hT, c_log, c_div, fit_upper, h0, h2, hG, hpos, hge,
    if_true, if_false, Option.pure_def, Option.bind_eq_bind, Option.some_bind,
    hw2a, hw2b, (Real.exp_pos _).ne']

theorem line_through_left (x0 y0 x1 y1 : ℝ) : line_through x0 y0 x1 y1 x0 = y0 := by
  simp [line_through]

theorem line_through_right (x0 y0 x1 y1 : ℝ) (h : x0 ≠ x1) :
    line_through x0 y0 x1 y1 x1 = y1 := by
  have h2 : x1 - x0 ≠ 0 := sub_ne_zero.mpr (Ne.symm h)
  simp [line_through, div_mul_cancel₀ _ h2]

end Model1

section Claims

variable {α : Type} [LinearOrderedField α]

/-- C1: `get_attenuation_length` throws exactly when `model` is neither 1 nor 2; for
`model = 1` and for `model = 2` it returns a double. -/
theorem get_attenuation_length_throws_iff (exp log : α → α) (u : Units α) (z frequency : α)
    (model : Int) :
    ((∃ e, get_attenuation_length exp log u z frequency model = .error e) ↔
        (model ≠ 1 ∧ model ≠ 2)) ∧
      ((model = 1 ∨ model = 2) →
        ∃ d, get_attenuation_length exp log u z frequency model = .ok d) := by
  unfold get_attenuation_length
  by_cases h1 : model = 1
  · simp [h1]
  · by_cases h2 : model = 2
    · simp [h2]
    · simp [h1, h2]

/-- C6: `get_temperature z` is the cubic of the specification at `d = |z / m|`; it is
`-51.0696` at `z = 0`, and it takes the same value at `z` and at `-z`. -/
theorem get_temperature_eq_cubic (u : Units α) (z : α) (hm : u.m ≠ 0) :
    get_temperature u z =
        some (1.83415e-9 * |z / u.m|^3 - 1.59061e-8 * |z / u.m|^2 + 0.00267687 * |z / u.m|
          - 51.0696) ∧
      get_temperature u 0 = some (-51.0696) ∧
      get_temperature u z = get_temperature u (-z) := by
  refine ⟨?_, ?_, ?_⟩
  · simp only [get_temperature, c_div, hm, if_false, Option.pure_def, Option.bind_eq_bind,
      Option.some_bind, Option.some.injEq]
    ring
  · simp [get_temperature, c_div, hm]
  · simp [get_temperature, c_div, hm, neg_div]

theorem get_temperature_eq_cubic_witness :
    (metreGHz ℚ).m ≠ 0 ∧
      (get_temperature (metreGHz ℚ) (-1000) =
          some (1.83415e-9 * |(-1000 : ℚ) / (metreGHz ℚ).m|^3
            - 1.59061e-8 * |(-1000 : ℚ) / (metreGHz ℚ).m|^2
            + 0.00267687 * |(-1000 : ℚ) / (metreGHz ℚ).m| - 51.0696) ∧
        get_temperature (metreGHz ℚ) 0 = some (-51.0696) ∧
        get_temperature (metreGHz ℚ) (-1000) = get_temperature (metreGHz ℚ) (- -1000)) :=
  ⟨by simp [metreGHz], get_temperature_eq_cubic (metreGHz ℚ) (-1000) (by simp [metreGHz])⟩

/-- C3: for `depth[i] < z < depth[i+1]` with `0 <= i <= 88` the scan selects the bracket
`(i, i+1)` and model 2 returns the interpolated entry minus the frequency correction
`0.55 * utl::m * (f/MHz - 75)`, which is `0.55 * (f/MHz - 75)` when `utl::m` is 1. -/
theorem model2_interpolates (exp log : α → α) (u : Units α) (z frequency : α) (i : Nat)
    (hi : i ≤ 88) (hlo : depth_at i < z) (hhi : z < depth_at (i+1)) (hMHz : u.MHz ≠ 0) :
    scan z = (i, i+1) ∧
      get_attenuation_length exp log u z frequency 2 =
        .ok (some (att_length_at i + (att_length_at (i+1) - att_length_at i) * (z - depth_at i) /
          (depth_at (i+1) - depth_at i) - 0.55 * u.m * (frequency / u.MHz - 75))) ∧
      (u.m = 1 →
        get_attenuation_length exp log u z frequency 2 =
          .ok (some (att_length_at i + (att_length_at (i+1) - att_length_at i) *
            (z - depth_at i) / (depth_at (i+1) - depth_at i)
            - 0.55 * (frequency / u.MHz - 75)))) := by
  have h := model2_of_bracket u z frequency i hi ⟨hlo, hhi⟩ hMHz
  refine ⟨scan_of_bracket z i hi ⟨hlo, hhi⟩, ?_, ?_⟩
  · simp [get_attenuation_length, h]
  · intro hm
    simp [get_attenuation_length, h, hm]

theorem model2_interpolates_witness :
    (1 : Nat) ≤ 88 ∧ (depth_at 1 : ℚ) < -3000 ∧ (-3000 : ℚ) < depth_at (1+1) ∧
      (metreGHz ℚ).MHz ≠ 0 ∧
      (scan (-3000 : ℚ) = (1, 1+1) ∧
        get_attenuation_length id id (metreGHz ℚ) (-3000) (3/40) 2 =
          .ok (some (att_length_at 1 + (att_length_at (1+1) - att_length_at 1) *
            (-3000 - depth_at 1) / (depth_at (1+1) - depth_at 1)
            - 0.55 * (metreGHz ℚ).m * ((3/40) / (metreGHz ℚ).MHz - 75))) ∧
        ((metreGHz ℚ).m = 1 →
          get_attenuation_length id id (metreGHz ℚ) (-3000) (3/40) 2 =
            .ok (some (att_length_at 1 + (att_length_at (1+1) - att_length_at 1) *
              (-3000 - depth_at 1) / (depth_at (1+1) - depth_at 1)
              - 0.55 * ((3/40) / (metreGHz ℚ).MHz - 75))))) :=
  have h1 : (depth_at 1 : ℚ) < -3000 := by
    rw [show (depth_at 1 : ℚ) = -3007.84 from rfl]; norm_num
  have h2 : (-3000 : ℚ) < depth_at (1+1) := by
    rw [show (depth_at (1+1) : ℚ) = -2988.93 from rfl]; norm_num
  have h3 : (metreGHz ℚ).MHz ≠ 0 := by simp [metreGHz]
  ⟨by decide, h1, h2, h3,
    model2_interpolates id id (metreGHz ℚ) (-3000) (3/40) 1 (by decide) h1 h2 h3⟩

/-- C4: below `depth[0] = -3038.15` model 2 returns `att_length[0] = 453.19`, above
`depth[89] = -3.16` it returns `att_length[89] = 1152.42`, whatever the frequency. -/
theorem model2_clamps_at_edges (exp log : α → α) (u : Units α) (z frequency : α) :
    ((depth_at 0 : α) = -3038.15 ∧ (att_length_at 0 : α) = 453.19 ∧
        (depth_at 89 : α) = -3.16 ∧ (att_length_at 89 : α) = 1152.42) ∧
      (z < depth_at 0 →
        get_attenuation_length exp log u z frequency 2 = .ok (some (att_length_at 0))) ∧
      (z > depth_at 89 →
        get_attenuation_length exp log u z frequency 2 = .ok (some (att_length_at 89))) := by
  refine ⟨⟨rfl, rfl, rfl, rfl⟩, ?_, ?_⟩
  · intro h
    simp [get_attenuation_length, get_attenuation_length_model2, h]
  · intro h
    have h0 : ¬ z < depth_at 0 :=
      not_lt.mpr (le_of_lt (lt_trans (depth_at_lt (by decide) (by decide)) h))
    simp [get_attenuation_length, get_attenuation_length_model2, h, h0]

/-- C7: at `z = depth[1] = -3007.84` and 75 MHz the code finds no bracket and divides
by `depth[0] - depth[0]`; no number results, where the claim expects
`att_length[1] = 461.92`. -/
theorem model2_at_depth_1 :
    (depth_at 1 : ℚ) = -3007.84 ∧ (att_length_at 1 : ℚ) = 461.92 ∧
      scan (depth_at 1 : ℚ) = (0, 0) ∧
      get_attenuation_length id id (metreGHz ℚ) (depth_at 1) (75 * (metreGHz ℚ).MHz) 2 =
        .ok none := by
  refine ⟨rfl, rfl, scan_at_table_entry 1 (by decide), ?_⟩
  simp [get_attenuation_length, model2_at_table_entry (metreGHz ℚ) _ 1 (by decide)]

/-- C8, as stated, fails below the table: at `z = -4000` the results at the frequencies
`1/10 < 2/10` are both `att_length[0]`. -/
theorem model2_not_decreasing_below_table :
    (1/10 : ℚ) < 2/10 ∧
      ¬ ∃ r1 r2 : ℚ,
        get_attenuation_length id id (metreGHz ℚ) (-4000) (1/10) 2 = .ok (some r1) ∧
        get_attenuation_length id id (metreGHz ℚ) (-4000) (2/10) 2 = .ok (some r2) ∧
        r2 < r1 := by
  have hz : (-4000 : ℚ) < depth_at 0 := by
    rw [show (depth_at 0 : ℚ) = -3038.15 from rfl]; norm_num
  refine ⟨by norm_num, ?_⟩
  rintro ⟨r1, r2, h1, h2, hlt⟩
  simp only [get_attenuation_length, get_attenuation_length_model2, hz, if_true,
    show ¬ ((2 : Int) = 1) by decide, if_false, Except.ok.injEq, Option.some.injEq] at h1 h2
  rw [← h1, ← h2] at hlt
  exact lt_irrefl _ hlt

/-- C8, amended: for `depth[i] < z < depth[i+1]` with `0 <= i <= 88`, and positive unit
constants `utl::m` and `utl::MHz`, the model-2 result at `f2` is strictly below the
result at `f1` whenever `f1 < f2`. -/
theorem model2_strictly_decreasing_in_bracket (exp log : α → α) (u : Units α) (z f1 f2 : α)
    (i : Nat) (hi : i ≤ 88) (hlo : depth_at i < z) (hhi : z < depth_at (i+1))
    (hm : 0 < u.m) (hMHz : 0 < u.MHz) (hf : f1 < f2) :
    ∃ r1 r2 : α,
      get_attenuation_length exp log u z f1 2 = .ok (some r1) ∧
      get_attenuation_length exp log u z f2 2 = .ok (some r2) ∧
      r2 < r1 := by
  have e1 := model2_of_bracket u z f1 i hi ⟨hlo, hhi⟩ (ne_of_gt hMHz)
  have e2 := model2_of_bracket u z f2 i hi ⟨hlo, hhi⟩ (ne_of_gt hMHz)
  refine ⟨att_length_at i + (att_length_at (i+1) - att_length_at i) * (z - depth_at i) /
      (depth_at (i+1) - depth_at i) - 0.55 * u.m * (f1 / u.MHz - 75),
    att_length_at i + (att_length_at (i+1) - att_length_at i) * (z - depth_at i) /
      (depth_at (i+1) - depth_at i) - 0.55 * u.m * (f2 / u.MHz - 75),
    by simp [get_attenuation_length, e1], by simp [get_attenuation_length, e2], ?_⟩
  have hdiv : f1 / u.MHz < f2 / u.MHz := div_lt_div_of_pos_right hf hMHz
  have hc : (0 : α) < 0.55 * u.m := mul_pos (by norm_num) hm
  have hmul : 0.55 * u.m * (f1 / u.MHz - 75) < 0.55 * u.m * (f2 / u.MHz - 75) :=
    mul_lt_mul_of_pos_left (by linarith) hc
  linarith

theorem model2_strictly_decreasing_in_bracket_witness :
    (1 : Nat) ≤ 88 ∧ (depth_at 1 : ℚ) < -3000 ∧ (-3000 : ℚ) < depth_at (1+1) ∧
      0 < (metreGHz ℚ).m ∧ 0 < (metreGHz ℚ).MHz ∧ (1/10 : ℚ) < 2/10 ∧
      ∃ r1 r2 : ℚ,
        get_attenuation_length id id (metreGHz ℚ) (-3000) (1/10) 2 = .ok (some r1) ∧
        get_attenuation_length id id (metreGHz ℚ) (-3000) (2/10) 2 = .ok (some r2) ∧
        r2 < r1 :=
  have h1 : (depth_at 1 : ℚ) < -3000 := by
    rw [show (depth_at 1 : ℚ) = -3007.84 from rfl]; norm_num
  have h2 : (-3000 : ℚ) < depth_at (1+1) := by
    rw [show (depth_at (1+1) : ℚ) = -2988.93 from rfl]; norm_num
  have h3 : 0 < (metreGHz ℚ).m := by simp [metreGHz]
  have h4 : 0 < (metreGHz ℚ).MHz := by simp [metreGHz]
  have h5 : (1/10 : ℚ) < 2/10 := by norm_num
  ⟨by decide, h1, h2, h3, h4, h5,
    model2_strictly_decreasing_in_bracket id id (metreGHz ℚ) (-3000) (1/10) (2/10) 1
      (by decide) h1 h2 h3 h4 h5⟩

/-- C10: for positive unit constants `utl::m` and `utl::MHz`, model 2 returns a negative
number at some depth and positive frequency; with `utl::m = 1`, at `z = -3000` and
`f = 1000 MHz` the result is `-1606941/37820`, the interpolated value being below
`508.75`. -/
theorem model2_negative_result (exp log : α → α) (u : Units α) (hm : 0 < u.m)
    (hMHz : 0 < u.MHz) :
    (∃ z f : α, 0 < f ∧ ∃ r : α,
        get_attenuation_length exp log u z f 2 = .ok (some r) ∧ r < 0) ∧
      (u.m = 1 →
        get_attenuation_length exp log u (-3000) (1000 * u.MHz) 2 =
            .ok (some (-1606941/37820)) ∧
          (0 : α) < 1000 * u.MHz ∧ (-1606941/37820 : α) < 0 ∧
          att_length_at 1 + (att_length_at (1+1) - att_length_at 1) *
            (-3000 - depth_at 1) / (depth_at (1+1) - depth_at 1) < (508.75 : α)) := by
  have h1 : (depth_at 1 : α) < -3000 := by
    rw [show (depth_at 1 : α) = -3007.84 from rfl]; norm_num
  have h2 : (-3000 : α) < depth_at (1+1) := by
    rw [show (depth_at (1+1) : α) = -2988.93 from rfl]; norm_num
  have hM : u.MHz ≠ 0 := ne_of_gt hMHz
  have hinterp : att_length_at 1 + (att_length_at (1+1) - att_length_at 1) *
      (-3000 - depth_at 1) / (depth_at (1+1) - depth_at 1) = (8816992/18910 : α) := by
    rw [show (depth_at 1 : α) = -3007.84 from rfl, show (depth_at (1+1) : α) = -2988.93 from rfl,
      show (att_length_at 1 : α) = 461.92 from rfl,
      show (att_length_at (1+1) : α) = 472.39 from rfl]
    norm_num
  constructor
  · have e := model2_of_bracket u (-3000) ((75 + 1000 / u.m) * u.MHz) 1 (by decide) ⟨h1, h2⟩ hM
    refine ⟨-3000, (75 + 1000 / u.m) * u.MHz,
      mul_pos (add_pos (by norm_num) (div_pos (by norm_num) hm)) hMHz,
      8816992/18910 - 550, ?_, by norm_num⟩
    rw [hinterp, mul_div_cancel_right₀ _ hM] at e
    simp only [get_attenuation_length, show ¬ ((2 : Int) = 1) by decide, if_false, if_true, e,
      Except.ok.injEq, Option.some.injEq]
    have hm0 : u.m ≠ 0 := ne_of_gt hm
    field_simp
    ring
  · intro hm1
    have e := model2_of_bracket u (-3000) (1000 * u.MHz) 1 (by decide) ⟨h1, h2⟩ hM
    rw [hinterp, mul_div_cancel_right₀ _ hM, hm1] at e
    refine ⟨?_, mul_pos (by norm_num) hMHz, by norm_num, ?_⟩
    · simp only [get_attenuation_length, show ¬ ((2 : Int) = 1) by decide, if_false, if_true, e,
        Except.ok.injEq, Option.some.injEq]
      norm_num
    · rw [hinterp]; norm_num

theorem model2_negative_result_witness :
    0 < (metreGHz ℚ).m ∧ 0 < (metreGHz ℚ).MHz ∧
      ((∃ z f : ℚ, 0 < f ∧ ∃ r : ℚ,
          get_attenuation_length id id (metreGHz ℚ) z f 2 = .ok (some r) ∧ r < 0) ∧
        ((metreGHz ℚ).m = 1 →
          get_attenuation_length id id (metreGHz ℚ) (-3000) (1000 * (metreGHz ℚ).MHz) 2 =
              .ok (some (-1606941/37820)) ∧
            (0 : ℚ) < 1000 * (metreGHz ℚ).MHz ∧ (-1606941/37820 : ℚ) < 0 ∧
            att_length_at 1 + (att_length_at (1+1) - att_length_at 1) *
              (-3000 - depth_at 1) / (depth_at (1+1) - depth_at 1) < (508.75 : ℚ))) :=
  ⟨by simp [metreGHz], by simp [metreGHz],
    model2_negative_result id id (metreGHz ℚ) (by simp [metreGHz]) (by simp [metreGHz])⟩

/-- C2: for `f > 0` (and unit constants `utl::m` not zero, `utl::GHz` positive), with
`T = get_temperature z` and `w = log (f / GHz)`, model 1 returns `1 / exp (g w)`, where
`g` is the line through `(w0, b0)` and `(w1, b1)` for `f < 1 GHz` and the line through
`(w1, b1)` and `(w2, b2)` for `f >= 1 GHz`; the result is `1 / exp b0` at `0.0001 GHz`
and `1 / exp b2` at `3.16 GHz`. -/
theorem model1_is_line_fit (u : Units ℝ) (z frequency : ℝ) (hf : 0 < frequency)
    (hm : u.m ≠ 0) (hG : 0 < u.GHz) :
    ∃ T, get_temperature u z = some T ∧
      (frequency < 1 * u.GHz →
        get_attenuation_length Real.exp Real.log u z frequency 1 =
          .ok (some (1 / Real.exp (line_through (Real.log 0.0001) (fit_b0 T) 0 (fit_b1 T)
            (Real.log (frequency / u.GHz)))))) ∧
      (1 * u.GHz ≤ frequency →
        get_attenuation_length Real.exp Real.log u z frequency 1 =
          .ok (some (1 / Real.exp (line_through 0 (fit_b1 T) (Real.log 3.16) (fit_b2 T)
            (Real.log (frequency / u.GHz)))))) ∧
      (line_through (Real.log 0.0001) (fit_b0 T) 0 (fit_b1 T) (Real.log 0.0001) = fit_b0 T ∧
        line_through (Real.log 0.0001) (fit_b0 T) 0 (fit_b1 T) 0 = fit_b1 T ∧
        line_through 0 (fit_b1 T) (Real.log 3.16) (fit_b2 T) 0 = fit_b1 T ∧
        line_through 0 (fit_b1 T) (Real.log 3.16) (fit_b2 T) (Real.log 3.16) = fit_b2 T) ∧
      get_attenuation_length Real.exp Real.log u z (0.0001 * u.GHz) 1 =
        .ok (some (1 / Real.exp (fit_b0 T))) ∧
      get_attenuation_length Real.exp Real.log u z (3.16 * u.GHz) 1 =
        .ok (some (1 / Real.exp (fit_b2 T))) := by
  obtain ⟨T, hT⟩ := get_temperature_some u z hm
  have hG0 : u.GHz ≠ 0 := ne_of_gt hG
  have hw0 : Real.log 0.0001 ≠ 0 := ne_of_lt log_f0_neg
  have hw2 : (0 : ℝ) ≠ Real.log 3.16 := ne_of_lt log_f2_pos
  refine ⟨T, hT, ?_, ?_, ⟨line_through_left _ _ _ _, line_through_right _ _ _ _ hw0,
    line_through_left _ _ _ _, line_through_right _ _ _ _ hw2⟩, ?_, ?_⟩
  · intro hlt
    simp [get_attenuation_length, model1_lower u z frequency T hT hG0 (div_pos hf hG) hlt]
  · intro hge
    simp [get_attenuation_length,
      model1_upper u z frequency T hT hG0 (div_pos hf hG) (not_lt.mpr hge)]
  · have hq : 0.0001 * u.GHz / u.GHz = 0.0001 := mul_div_cancel_right₀ _ hG0
    have hlt : 0.0001 * u.GHz < 1 * u.GHz := mul_lt_mul_of_pos_right (by norm_num) hG
    have h := model1_lower u z (0.0001 * u.GHz) T hT hG0 (by rw [hq]; norm_num) hlt
    rw [hq, line_through_left] at h
    simp [get_attenuation_length, h]
  · have hq : 3.16 * u.GHz / u.GHz = 3.16 := mul_div_cancel_right₀ _ hG0
    have hge : ¬ 3.16 * u.GHz < 1 * u.GHz :=
      not_lt.mpr (le_of_lt (mul_lt_mul_of_pos_right (by norm_num) hG))
    have h := model1_upper u z (3.16 * u.GHz) T hT hG0 (by rw [hq]; norm_num) hge
    rw [hq, line_through_right _ _ _ _ hw2] at h
    simp [get_attenuation_length, h]

/-- C5, as stated, fails for a frequency that is not positive: at `z = 0` and `f = -1`
the logarithm has no value and model 1 returns no positive number. -/
theorem model1_not_positive_at_negative_frequency :
    ¬ ∃ r : ℝ,
      get_attenuation_length Real.exp Real.log (metreGHz ℝ) 0 (-1) 1 = .ok (some r) ∧ 0 < r := by
  have h0 : (0 : ℝ) < 0.0001 := by norm_num
  have h2 : (0 : ℝ) < 3.16 := by norm_num
  have hnone : get_attenuation_length Real.exp Real.log (metreGHz ℝ) 0 (-1) 1 = .ok none := by
    simp [get_attenuation_length, get_attenuation_length_model1, get_temperature, c_div, c_log,
      metreGHz, h0, h2]
  rintro ⟨r, hr, -⟩
  rw [hnone] at hr
  simp at hr

/-- C5, amended: for every real depth `z` and every real frequency `f > 0` (and unit
constants `utl::m` not zero, `utl::GHz` positive) model 1 returns a strictly positive
number. -/
theorem model1_positive (u : Units ℝ) (z frequency : ℝ) (hf : 0 < frequency)
    (hm : u.m ≠ 0) (hG : 0 < u.GHz) :
    ∃ r : ℝ, get_attenuation_length Real.exp Real.log u z frequency 1 = .ok (some r) ∧
      0 < r := by
  obtain ⟨T, hT⟩ := get_temperature_some u z hm
  by_cases hlt : frequency < 1 * u.GHz
  · have h := model1_lower u z frequency T hT (ne_of_gt hG) (div_pos hf hG) hlt
    exact ⟨1 / Real.exp (line_through (Real.log 0.0001) (fit_b0 T) 0 (fit_b1 T)
        (Real.log (frequency / u.GHz))),
      by simp [get_attenuation_length, h], one_div_pos.mpr (Real.exp_pos _)⟩
  · have h := model1_upper u z frequency T hT (ne_of_gt hG) (div_pos hf hG) hlt
    exact ⟨1 / Real.exp (line_through 0 (fit_b1 T) (Real.log 3.16) (fit_b2 T)
        (Real.log (frequency / u.GHz))),
      by simp [get_attenuation_length, h], one_div_pos.mpr (Real.exp_pos _)⟩

theorem model1_positive_witness :
    (0 : ℝ) < 1/2 ∧ (metreGHz ℝ).m ≠ 0 ∧ 0 < (metreGHz ℝ).GHz ∧
      ∃ r : ℝ,
        get_attenuation_length Real.exp Real.log (metreGHz ℝ) (-1000) (1/2) 1 = .ok (some r) ∧
        0 < r :=
  have h1 : (0 : ℝ) < 1/2 := by norm_num
  have h2 : (metreGHz ℝ).m ≠ 0 := by simp [metreGHz]
  have h3 : 0 < (metreGHz ℝ).GHz := by simp [metreGHz]
  ⟨h1, h2, h3, model1_positive (metreGHz ℝ) (-1000) (1/2) h1 h2 h3⟩

/-- C9: at `f = 1 GHz` (unit constants `utl::m` and `utl::GHz` not zero) the test
`frequency < 1 GHz` fails, so model 1 evaluates the branch fitted through `b1` and `b2`;
it returns `1 / exp b1` with `b1` taken at `T = get_temperature z`, and the branch
fitted through `b0` and `b1` gives the same value at `1 GHz`. -/
theorem model1_seam (u : Units ℝ) (z : ℝ) (hm : u.m ≠ 0) (hG : u.GHz ≠ 0) :
    ∃ T, get_temperature u z = some T ∧
      ¬ (1 * u.GHz < 1 * u.GHz) ∧
      (∃ a bb, fit_upper 0 (Real.log 3.16) (fit_b1 T) (fit_b2 T) = some (a, bb) ∧
        get_attenuation_length Real.exp Real.log u z (1 * u.GHz) 1 =
          .ok (some (1 / Real.exp (a + bb * Real.log (1 * u.GHz / u.GHz))))) ∧
      get_attenuation_length Real.exp Real.log u z (1 * u.GHz) 1 =
        .ok (some (1 / Real.exp (fit_b1 T))) ∧
      (∃ a bb, fit_lower (Real.log 0.0001) 0 (fit_b0 T) (fit_b1 T) = some (a, bb) ∧
        1 / Real.exp (a + bb * Real.log (1 * u.GHz / u.GHz)) = 1 / Real.exp (fit_b1 T)) := by
  obtain ⟨T, hT⟩ := get_temperature_some u z hm
  have hw0 : Real.log 0.0001 ≠ 0 := ne_of_lt log_f0_neg
  have hw0a : Real.log 0.0001 - 0 ≠ 0 := by simpa using hw0
  have hw0b : 0 - Real.log 0.0001 ≠ 0 := by simpa using hw0
  have hw2 : Real.log 3.16 ≠ 0 := ne_of_gt log_f2_pos
  have hw2a : Real.log 3.16 - 0 ≠ 0 := by simpa using hw2
  have hw2b : 0 - Real.log 3.16 ≠ 0 := by simpa using hw2
  have hq : 1 * u.GHz / u.GHz = 1 := mul_div_cancel_right₀ _ hG
  have h := model1_upper u z (1 * u.GHz) T hT hG (by rw [hq]; norm_num) (lt_irrefl _)
  have hres : get_attenuation_length Real.exp Real.log u z (1 * u.GHz) 1 =
      .ok (some (1 / Real.exp (fit_b1 T))) := by
    rw [hq, Real.log_one, line_through_left] at h
    simp only [get_attenuation_length, if_true, h]
  refine ⟨T, hT, lt_irrefl _, ?_, hres, ?_⟩
  · refine ⟨(fit_b2 T * 0 - fit_b1 T * Real.log 3.16) / (0 - Real.log 3.16),
      (fit_b2 T - fit_b1 T) / (Real.log 3.16 - 0), ?_, ?_⟩
    · simp only [fit_upper, c_div, hw2a, hw2b, if_false, Option.pure_def, Option.bind_eq_bind,
        Option.some_bind]
    · rw [hres, fit_upper_eq_line _ _ _ _ hw2, hq, Real.log_one, line_through_left]
  · refine ⟨(fit_b1 T * Real.log 0.0001 - fit_b0 T * 0) / (Real.log 0.0001 - 0),
      (fit_b1 T - fit_b0 T) / (0 - Real.log 0.0001), ?_, ?_⟩
    · simp only [fit_lower, c_div, hw0a, hw0b, if_false, Option.pure_def, Option.bind_eq_bind,
        Option.some_bind]
    · rw [fit_lower_eq_line _ _ _ _ hw0, hq, Real.log_one, line_through_right _ _ _ _ hw0]

theorem model1_seam_witness :
    (metreGHz ℝ).m ≠ 0 ∧ (metreGHz ℝ).GHz ≠ 0 ∧
      ∃ T, get_temperature (metreGHz ℝ) (-1000) = some T ∧
        ¬ (1 * (metreGHz ℝ).GHz < 1 * (metreGHz ℝ).GHz) ∧
        (∃ a bb, fit_upper 0 (Real.log 3.16) (fit_b1 T) (fit_b2 T) = some (a, bb) ∧
          get_attenuation_length Real.exp Real.log (metreGHz ℝ) (-1000)
              (1 * (metreGHz ℝ).GHz) 1 =
            .ok (some (1 / Real.exp
              (a + bb * Real.log (1 * (metreGHz ℝ).GHz / (metreGHz ℝ).GHz))))) ∧
        get_attenuation_length Real.exp Real.log (metreGHz ℝ) (-1000)
            (1 * (metreGHz ℝ).GHz) 1 =
          .ok (some (1 / Real.exp (fit_b1 T))) ∧
        (∃ a bb, fit_lower (Real.log 0.0001) 0 (fit_b0 T) (fit_b1 T) = some (a, bb) ∧
          1 / Real.exp (a + bb * Real.log (1 * (metreGHz ℝ).GHz / (metreGHz ℝ).GHz)) =
            1 / Real.exp (fit_b1 T)) :=
  have h1 : (metreGHz ℝ).m ≠ 0 := by simp [metreGHz]
  have h2 : (metreGHz ℝ).GHz ≠ 0 := by simp [metreGHz]
  ⟨h1, h2, model1_seam (metreGHz ℝ) (-1000) h1 h2⟩

theorem model1_is_line_fit_witness :
    (0 : ℝ) < 1/2 ∧ (metreGHz ℝ).m ≠ 0 ∧ 0 < (metreGHz ℝ).GHz ∧
      ∃ T, get_temperature (metreGHz ℝ) (-1000) = some T ∧
        ((1/2 : ℝ) < 1 * (metreGHz ℝ).GHz →
          get_attenuation_length Real.exp Real.log (metreGHz ℝ) (-1000) (1/2) 1 =
            .ok (some (1 / Real.exp (line_through (Real.log 0.0001) (fit_b0 T) 0 (fit_b1 T)
              (Real.log ((1/2) / (metreGHz ℝ).GHz)))))) ∧
        (1 * (metreGHz ℝ).GHz ≤ 1/2 →
          get_attenuation_length Real.exp Real.log (metreGHz ℝ) (-1000) (1/2) 1 =
            .ok (some (1 / Real.exp (line_through 0 (fit_b1 T) (Real.log 3.16) (fit_b2 T)
              (Real.log ((1/2) / (metreGHz ℝ).GHz)))))) ∧
        (line_through (Real.log 0.0001) (fit_b0 T) 0 (fit_b1 T) (Real.log 0.0001) = fit_b0 T ∧
          line_through (Real.log 0.0001) (fit_b0 T) 0 (fit_b1 T) 0 = fit_b1 T ∧
          line_through 0 (fit_b1 T) (Real.log 3.16) (fit_b2 T) 0 = fit_b1 T ∧
          line_through 0 (fit_b1 T) (Real.log 3.16) (fit_b2 T) (Real.log 3.16) = fit_b2 T) ∧
        get_attenuation_length Real.exp Real.log (metreGHz ℝ) (-1000)
            (0.0001 * (metreGHz ℝ).GHz) 1 =
          .ok (some (1 / Real.exp (fit_b0 T))) ∧
        get_attenuation_length Real.exp Real.log (metreGHz ℝ) (-1000)
            (3.16 * (metreGHz ℝ).GHz) 1 =
          .ok (some (1 / Real.exp (fit_b2 T))) :=
  have h1 : (0 : ℝ) < 1/2 := by norm_num
  have h2 : (metreGHz ℝ).m ≠ 0 := by simp [metreGHz]
  have h3 : 0 < (metreGHz ℝ).GHz := by simp [metreGHz]
  ⟨h1, h2, h3, model1_is_line_fit (metreGHz ℝ) (-1000) (1/2) h1 h2 h3⟩

/-- C11: at `z = depth[k]` with `0 <= k <= 89` neither early return of model 2 is
taken, no counter of the scan brackets `z`, the indices stay `(0, 0)`, and the divisor
of the interpolation is `depth[0] - depth[0] = 0`, so that no number results. -/
theorem model2_table_entry_divides_by_zero (exp log : α → α) (u : Units α) (frequency : α)
    (k : Nat) (hk : k ≤ 89) :
    ¬ ((depth_at k : α) < depth_at 0) ∧ ¬ ((depth_at k : α) > depth_at 89) ∧
      (∀ i, i < 89 → ¬ ((depth_at k : α) > depth_at i ∧ (depth_at k : α) < depth_at (i+1))) ∧
      scan (depth_at k : α) = (0, 0) ∧
      (depth_at (scan (depth_at k : α)).2 : α) - depth_at (scan (depth_at k : α)).1 = 0 ∧
      c_div
          (((att_length_at (scan (depth_at k : α)).2 : α) -
              att_length_at (scan (depth_at k : α)).1) *
            (depth_at k - depth_at (scan (depth_at k : α)).1))
          ((depth_at (scan (depth_at k : α)).2 : α) - depth_at (scan (depth_at k : α)).1) =
        none ∧
      get_attenuation_length exp log u (depth_at k) frequency 2 = .ok none := by
  have hscan := scan_at_table_entry (α := α) k hk
  refine ⟨not_lt.mpr (depth_at_le (Nat.zero_le k) (by omega)),
    not_lt.mpr (depth_at_le hk (by omega)), ?_, hscan, ?_, ?_, ?_⟩
  · intro i hi hc
    have h1 : i < k := by
      by_contra hcon
      exact absurd hc.1 (not_lt.mpr (depth_at_le (Nat.le_of_not_lt hcon) (by omega)))
    have h2 : k < i + 1 := by
      by_contra hcon
      exact absurd hc.2 (not_lt.mpr (depth_at_le (Nat.le_of_not_lt hcon) (by omega)))
    omega
  · rw [hscan]; exact sub_self _
  · rw [hscan]; simp [c_div]
  · simp [get_attenuation_length, model2_at_table_entry u frequency k hk]

theorem model2_table_entry_divides_by_zero_witness :
    (40 : Nat) ≤ 89 ∧
      (¬ ((depth_at 40 : ℚ) < depth_at 0) ∧ ¬ ((depth_at 40 : ℚ) > depth_at 89) ∧
        (∀ i, i < 89 →
          ¬ ((depth_at 40 : ℚ) > depth_at i ∧ (depth_at 40 : ℚ) < depth_at (i+1))) ∧
        scan (depth_at 40 : ℚ) = (0, 0) ∧
        (depth_at (scan (depth_at 40 : ℚ)).2 : ℚ) - depth_at (scan (depth_at 40 : ℚ)).1 = 0 ∧
        c_div
            (((att_length_at (scan (depth_at 40 : ℚ)).2 : ℚ) -
                att_length_at (scan (depth_at 40 : ℚ)).1) *
              (depth_at 40 - depth_at (scan (depth_at 40 : ℚ)).1))
            ((depth_at (scan (depth_at 40 : ℚ)).2 : ℚ) - depth_at (scan (depth_at 40 : ℚ)).1) =
          none ∧
        get_attenuation_length id id (metreGHz ℚ) (depth_at 40) (3/40) 2 = .ok none) :=
  ⟨by decide, model2_table_entry_divides_by_zero id id (metreGHz ℚ) (3/40) 40 (by decide)⟩

/-- C12: the tables `att_length` and `depth` have 90 entries each, and every index of
the model-2 branch is below 90: the constants 0 and 89, the counters `i` and `i+1` of
the scan for `i < 89`, and `ind_left` and `ind_right` after the scan, for every `z`. -/
theorem model2_indices_in_bounds (z : α) :
    (att_length : List α).length = 90 ∧ (depth : List α).length = 90 ∧
      (0 < (depth : List α).length ∧ 89 < (depth : List α).length ∧
        0 < (att_length : List α).length ∧ 89 < (att_length : List α).length) ∧
      (∀ i, i < 89 → i < (depth : List α).length ∧ i + 1 < (depth : List α).length) ∧
      ((scan z).1 < (depth : List α).length ∧ (scan z).2 < (depth : List α).length ∧
        (scan z).1 < (att_length : List α).length ∧
        (scan z).2 < (att_length : List α).length) := by
  have hb := scan_bound z
  rw [att_length_length, depth_length]
  refine ⟨rfl, rfl, ⟨by decide, by decide, by decide, by decide⟩, ?_, hb.1, hb.2, hb.1, hb.2⟩
  intro i hi
  omega

/-- C13: the table `depth` is strictly increasing; a depth `z` with
`depth[0] <= z <= depth[89]` that is no entry of the table lies in exactly one bracket
`depth[i] < z < depth[i+1]` with `0 <= i <= 88`, the scan ends with `(i, i+1)`, and the
divisor `depth[ind_right] - depth[ind_left]` of the interpolation is positive. -/
theorem scan_finds_unique_bracket (z : α) (h0 : depth_at 0 ≤ z) (h89 : z ≤ depth_at 89)
    (hne : ∀ k, k ≤ 89 → z ≠ depth_at k) :
    (∀ i j, i < j → j < 90 → (depth_at i : α) < depth_at j) ∧
      ∃ i, (i ≤ 88 ∧ depth_at i < z ∧ z < depth_at (i+1)) ∧
        (∀ j, j ≤ 88 → depth_at j < z ∧ z < depth_at (j+1) → j = i) ∧
        scan z = (i, i+1) ∧
        0 < (depth_at (scan z).2 : α) - depth_at (scan z).1 := by
  refine ⟨fun i j hij hj => depth_at_lt hij hj, ?_⟩
  have h0lt : depth_at 0 < z := lt_of_le_of_ne h0 (Ne.symm (hne 0 (by decide)))
  have h89lt : z < depth_at 89 := lt_of_le_of_ne h89 (hne 89 (by decide))
  obtain ⟨i, hi, hb⟩ := exists_bracket z 89 (le_refl 89) h0lt h89lt hne
  have hi88 : i ≤ 88 := by omega
  have hscan := scan_of_bracket z i hi88 hb
  refine ⟨i, ⟨hi88, hb.1, hb.2⟩, fun j hj hzj => bracket_unique z i j hi88 hj hb hzj, hscan, ?_⟩
  rw [hscan]
  exact sub_pos.mpr (depth_at_lt (Nat.lt_succ_self i) (by omega))

theorem scan_finds_unique_bracket_witness :
    (depth_at 0 : ℚ) ≤ -3000 ∧ (-3000 : ℚ) ≤ depth_at 89 ∧
      (∀ k, k ≤ 89 → (-3000 : ℚ) ≠ depth_at k) ∧
      ((∀ i j, i < j → j < 90 → (depth_at i : ℚ) < depth_at j) ∧
        ∃ i, (i ≤ 88 ∧ depth_at i < (-3000 : ℚ) ∧ (-3000 : ℚ) < depth_at (i+1)) ∧
          (∀ j, j ≤ 88 → depth_at j < (-3000 : ℚ) ∧ (-3000 : ℚ) < depth_at (j+1) → j = i) ∧
          scan (-3000 : ℚ) = (i, i+1) ∧
          0 < (depth_at (scan (-3000 : ℚ)).2 : ℚ) - depth_at (scan (-3000 : ℚ)).1) :=
  have h1 : (depth_at 1 : ℚ) < -3000 := by
    rw [show (depth_at 1 : ℚ) = -3007.84 from rfl]; norm_num
  have h2 : (-3000 : ℚ) < depth_at 2 := by
    rw [show (depth_at 2 : ℚ) = -2988.93 from rfl]; norm_num
  have h0 : (depth_at 0 : ℚ) ≤ -3000 := le_trans (depth_at_le (by decide) (by decide)) (le_of_lt h1)
  have h89 : (-3000 : ℚ) ≤ depth_at 89 :=
    le_trans (le_of_lt h2) (depth_at_le (by decide) (by decide))
  have hne : ∀ k, k ≤ 89 → (-3000 : ℚ) ≠ depth_at k := fun k hk => by
    rcases Nat.lt_or_ge k 2 with h | h
    · exact ne_of_gt (lt_of_le_of_lt (depth_at_le (Nat.le_of_lt_succ h) (by decide)) h1)
    · exact ne_of_lt (lt_of_lt_of_le h2 (depth_at_le h (by omega)))
  ⟨h0, h89, hne, scan_finds_unique_bracket (-3000) h0 h89 hne⟩

/-- C14: for `depth[i] < z < depth[i+1]` with `0 <= i <= 88` the model-2 result at
75 MHz lies between `att_length[i]` and `att_length[i+1]`, hence in `[453.19, 1180.87]`,
the least and the greatest entry of `att_length`. -/
theorem model2_75MHz_within_table (exp log : α → α) (u : Units α) (z : α) (i : Nat)
    (hi : i ≤ 88) (hlo : depth_at i < z) (hhi : z < depth_at (i+1)) (hMHz : u.MHz ≠ 0) :
    ((att_length_at 0 : α) = 453.19 ∧ (att_length_at 67 : α) = 1180.87 ∧
        ∀ k, k ≤ 89 → (453.19 : α) ≤ att_length_at k ∧ att_length_at k ≤ (1180.87 : α)) ∧
      ∃ r : α, get_attenuation_length exp log u z (75 * u.MHz) 2 = .ok (some r) ∧
        min (att_length_at i) (att_length_at (i+1)) ≤ r ∧
        r ≤ max (att_length_at i) (att_length_at (i+1)) ∧
        453.19 ≤ r ∧ r ≤ 1180.87 := by
  refine ⟨⟨rfl, rfl, fun k hk => att_length_at_bounds k hk⟩, ?_⟩
  have e := model2_of_bracket u z (75 * u.MHz) i hi ⟨hlo, hhi⟩ hMHz
  rw [mul_div_cancel_right₀ _ hMHz, sub_self, mul_zero, sub_zero] at e
  have hden : 0 < (depth_at (i+1) : α) - depth_at i :=
    sub_pos.mpr (depth_at_lt (Nat.lt_succ_self i) (by omega))
  have ht0 : 0 ≤ (z - depth_at i) / (depth_at (i+1) - depth_at i) :=
    div_nonneg (le_of_lt (sub_pos.mpr hlo)) (le_of_lt hden)
  have ht1 : (z - depth_at i) / (depth_at (i+1) - depth_at i) ≤ 1 :=
    (div_le_one hden).mpr (by linarith)
  have hlow : min (att_length_at i) (att_length_at (i+1)) ≤
      att_length_at i + (att_length_at (i+1) - att_length_at i) * (z - depth_at i) /
        (depth_at (i+1) - depth_at i) := by
    rw [mul_div_assoc]
    rcases le_total (att_length_at i : α) (att_length_at (i+1)) with h | h
    · rw [min_eq_left h]; nlinarith
    · rw [min_eq_right h]; nlinarith
  have hupp : att_length_at i + (att_length_at (i+1) - att_length_at i) * (z - depth_at i) /
        (depth_at (i+1) - depth_at i) ≤ max (att_length_at i) (att_length_at (i+1)) := by
    rw [mul_div_assoc]
    rcases le_total (att_length_at i : α) (att_length_at (i+1)) with h | h
    · rw [max_eq_right h]; nlinarith
    · rw [max_eq_left h]; nlinarith
  have bi := att_length_at_bounds (α := α) i (by omega)
  have bj := att_length_at_bounds (α := α) (i+1) (by omega)
  refine ⟨att_length_at i + (att_length_at (i+1) - att_length_at i) * (z - depth_at i) /
      (depth_at (i+1) - depth_at i), by simp [get_attenuation_length, e], hlow, hupp,
    le_trans (le_min bi.1 bj.1) hlow, le_trans hupp (max_le bi.2 bj.2)⟩

theorem model2_75MHz_within_table_witness :
    (1 : Nat) ≤ 88 ∧ (depth_at 1 : ℚ) < -3000 ∧ (-3000 : ℚ) < depth_at (1+1) ∧
      (metreGHz ℚ).MHz ≠ 0 ∧
      (((att_length_at 0 : ℚ) = 453.19 ∧ (att_length_at 67 : ℚ) = 1180.87 ∧
          ∀ k, k ≤ 89 → (453.19 : ℚ) ≤ att_length_at k ∧ att_length_at k ≤ (1180.87 : ℚ)) ∧
        ∃ r : ℚ,
          get_attenuation_length id id (metreGHz ℚ) (-3000) (75 * (metreGHz ℚ).MHz) 2 =
            .ok (some r) ∧
          min (att_length_at 1) (att_length_at (1+1)) ≤ r ∧
          r ≤ max (att_length_at 1) (att_length_at (1+1)) ∧
          453.19 ≤ r ∧ r ≤ 1180.87) :=
  have h1 : (depth_at 1 : ℚ) < -3000 := by
    rw [show (depth_at 1 : ℚ) = -3007.84 from rfl]; norm_num
  have h2 : (-3000 : ℚ) < depth_at (1+1) := by
    rw [show (depth_at (1+1) : ℚ) = -2988.93 from rfl]; norm_num
  have h3 : (metreGHz ℚ).MHz ≠ 0 := by simp [metreGHz]
  ⟨by decide, h1, h2, h3,
    model2_75MHz_within_table id id (metreGHz ℚ) (-3000) 1 (by decide) h1 h2 h3⟩

end Claims

end Attenuation
